import Mathlib

set_option linter.all false

/-!
Shallow embedding of the duktape-rs wrapper (src/context.rs, src/types.rs,
src/error.rs) and proofs about it.

The duktape engine itself is an external collaborator of the repository
(spec section 6 lists the fixed contract the wrapper consumes).  It is
modelled here as an explicit state: a value stack, a heap of objects, and
the hidden heap-stash registry.  Each engine primitive the wrapper calls
(duk_push_x, duk_pop, duk_get_prop_lstring, duk_put_prop, ...) is a state
transformer following that contract.  Machine doubles are idealized as
NaN, signed infinity, or an exact rational; rounding of non-representable
finite values is not modelled and no claim depends on it.  Rust panics
(assert failures, unwrap of an Err) are modelled as Option.none at the
operation that would panic.
-/

/-- Idealized IEEE-754 binary64 value: NaN, a signed infinity (true is
positive), or an exact finite value represented as a rational. -/
inductive F64 where
  | nan : F64
  | inf : Bool → F64
  | fin : ℚ → F64
deriving DecidableEq

/-- Truncation toward zero, the behaviour of Rust f64::trunc on exact
values. -/
def rtrunc (q : ℚ) : ℤ := q.num.tdiv (q.den : ℤ)

/-- Rust f64::fract, self minus its truncation toward zero; NaN on
non-finite inputs. -/
def F64.fract : F64 → F64
  | .nan => .nan
  | .inf _ => .nan
  | .fin q => .fin (q - (rtrunc q : ℚ))

/-- The comparison v > 0.0 on doubles; false for NaN. -/
def F64.gtZero : F64 → Bool
  | .nan => false
  | .inf b => b
  | .fin q => decide (0 < q)

def F64.isNaN : F64 → Bool
  | .nan => true
  | _ => false

def F64.isInfinite : F64 → Bool
  | .inf _ => true
  | _ => false

def i64Max : ℤ := 2 ^ 63 - 1

def i64Min : ℤ := -(2 ^ 63)

/-- Rust saturating cast v as i64: NaN to 0, infinities and out-of-range
values clamp to the i64 bounds, finite values truncate toward zero. -/
def F64.asI64 : F64 → ℤ
  | .nan => 0
  | .inf b => if b then i64Max else i64Min
  | .fin q => max i64Min (min i64Max (rtrunc q))

/-- Cast i64 as f64, exact in the idealized model. -/
def F64.ofInt (i : ℤ) : F64 := .fin (i : ℚ)

/-- Number (types.rs lines 9-14): the host-side refinement of the engine's
single double type. -/
inductive Number where
  | nan : Number
  | infinity : Number
  | float : F64 → Number
  | int : ℤ → Number
deriving DecidableEq

/-- Value (types.rs lines 60-67): the host-side tagged union.  The object
variant carries the heap pointer held by the Object handle. -/
inductive Value where
  | undefined : Value
  | null : Value
  | number : Number → Value
  | boolean : Bool → Value
  | string : String → Value
  | object : Nat → Value
deriving DecidableEq

/-- DukErrorCode (error.rs lines 13-22).  The repr(u32) discriminants fixed
by the dukbind constants are 0 to 6 in declaration order, with NullPtr
taking the next value 7. -/
inductive DukErrorCode where
  | noneCode : DukErrorCode
  | errorCode : DukErrorCode
  | evalCode : DukErrorCode
  | rangeCode : DukErrorCode
  | synCode : DukErrorCode
  | typeCode : DukErrorCode
  | uriCode : DukErrorCode
  | nullPtr : DukErrorCode
deriving DecidableEq

/-- DukError (error.rs lines 28-37): an error category plus an optional
message. -/
structure DukError where
  code : DukErrorCode
  message : Option String
deriving DecidableEq

/-- DukError::from_str (error.rs lines 49-54). -/
def DukError.fromStr (msg : String) : DukError := ⟨.errorCode, some msg⟩

/-- The unchecked mem::transmute of a u32 into DukErrorCode
(context.rs line 293), over the repr(u32) discriminants: a recognized code
yields its variant, any other value is undefined behaviour, modelled as
none. -/
def dukErrorCodeOfU32 : Nat → Option DukErrorCode
  | 0 => some .noneCode
  | 1 => some .errorCode
  | 2 => some .evalCode
  | 3 => some .rangeCode
  | 4 => some .synCode
  | 5 => some .typeCode
  | 6 => some .uriCode
  | 7 => some .nullPtr
  | _ => Option.none

/-- Engine-side values living on the duktape value stack.  obj refers to an
object in the engine heap by its heap pointer; ptr is a raw pointer value
(duk_push_pointer); stashRef is the hidden heap-stash object pushed by
duk_push_heap_stash. -/
inductive EVal where
  | undefined : EVal
  | null : EVal
  | boolean : Bool → EVal
  | num : F64 → EVal
  | str : String → EVal
  | obj : Nat → EVal
  | ptr : Nat → EVal
  | stashRef : EVal
deriving DecidableEq

/-- One engine-side object: its properties in insertion order, whether the
engine rejects property writes on it (frozen or non-extensible target), and
the error code duk_get_error_code reports for it (0 for non-error
objects). -/
structure ObjData where
  props : List (String × EVal)
  frozen : Bool
  errCode : Nat
deriving DecidableEq

/-- The modelled engine state: the value stack (head is the stack top), the
object heap keyed by heap pointer, and the heap-stash registry keyed by the
pointer value used by Object::new and the Object Drop impl. -/
structure Engine where
  stack : List EVal
  heap : List (Nat × ObjData)
  stash : List (Nat × EVal)
deriving DecidableEq

/-- Association-list lookup. -/
def alistGet {κ α : Type} [DecidableEq κ] : List (κ × α) → κ → Option α
  | [], _ => Option.none
  | kv :: t, k => if kv.1 = k then some kv.2 else alistGet t k

/-- Association-list write: updates the first entry with the key in place,
appends a fresh entry otherwise (JS objects keep insertion order). -/
def alistPut {κ α : Type} [DecidableEq κ] : List (κ × α) → κ → α → List (κ × α)
  | [], k, v => [(k, v)]
  | kv :: t, k, v => if kv.1 = k then (k, v) :: t else kv :: alistPut t k v

/-- Association-list delete of every entry with the key. -/
def alistDel {κ α : Type} [DecidableEq κ] : List (κ × α) → κ → List (κ × α)
  | [], _ => []
  | kv :: t, k => if kv.1 = k then alistDel t k else kv :: alistDel t k

/-- duk_push: one slot onto the value stack. -/
def dukPush (e : Engine) (v : EVal) : Engine := { e with stack := v :: e.stack }

/-- duk_pop: remove the top slot. -/
def dukPop (e : Engine) : Engine := { e with stack := e.stack.tail }

/-- Value at a top-relative stack index; the wrapper only ever passes the
negative indices -1, -2 and -3. -/
def stackAt (e : Engine) (idx : Int) : Option EVal := e.stack.get? (idx.natAbs - 1)

/-- Replace the slot at a top-relative stack index. -/
def setStackAt (e : Engine) (idx : Int) (v : EVal) : Engine :=
  { e with stack := e.stack.set (idx.natAbs - 1) v }

/-- duk_get_heapptr: the heap pointer of the object at the index, the null
pointer 0 otherwise. -/
def dukGetHeapptr (e : Engine) (idx : Int) : Nat :=
  match stackAt e idx with
  | some (.obj p) => p
  | _ => 0

/-- duk_push_heapptr: re-push a previously obtained object identity; a
pointer that no longer resolves to a live object pushes undefined, the
observable the wrapper's is_undefined guards rely on. -/
def dukPushHeapptr (e : Engine) (p : Nat) : Engine :=
  dukPush e (if (alistGet e.heap p).isSome then .obj p else .undefined)

/-- duk_get_prop_lstring: read property name of the object at the index,
push the property value (undefined when absent), and report whether the
property exists. -/
def dukGetPropLstring (e : Engine) (idx : Int) (name : String) : Engine × Bool :=
  match stackAt e idx with
  | some (.obj q) =>
    match alistGet e.heap q with
    | some od =>
      match alistGet od.props name with
      | some v => (dukPush e v, true)
      | Option.none => (dukPush e .undefined, false)
    | Option.none => (dukPush e .undefined, false)
  | _ => (dukPush e .undefined, false)

/-- duk_put_prop_lstring: pop the value at the top and write it to property
name of the object at objIdx (the index is resolved before the pop);
reports false when the engine rejects the write. -/
def dukPutPropLstring (e : Engine) (objIdx : Int) (name : String) : Engine × Bool :=
  match e.stack with
  | v :: rest =>
    let target := stackAt e objIdx
    let e1 : Engine := { e with stack := rest }
    match target with
    | some (.obj q) =>
      match alistGet e.heap q with
      | some od =>
        if od.frozen then (e1, false)
        else ({ e1 with heap := alistPut e.heap q ⟨alistPut od.props name v, od.frozen, od.errCode⟩ }, true)
      | Option.none => (e1, false)
    | _ => (e1, false)
  | [] => (e, false)

/-- duk_put_prop: value at the top, key below it, both popped; the target
index is resolved before the pops.  A pointer key on the stash object
writes the stash registry, a string key on a heap object writes its
properties. -/
def dukPutProp (e : Engine) (objIdx : Int) : Engine × Bool :=
  match e.stack with
  | v :: k :: rest =>
    let target := stackAt e objIdx
    let e1 : Engine := { e with stack := rest }
    match target, k with
    | some .stashRef, .ptr p => ({ e1 with stash := alistPut e1.stash p v }, true)
    | some (.obj q), .str s =>
      match alistGet e.heap q with
      | some od =>
        if od.frozen then (e1, false)
        else ({ e1 with heap := alistPut e.heap q ⟨alistPut od.props s v, od.frozen, od.errCode⟩ }, true)
      | Option.none => (e1, false)
    | _, _ => (e1, false)
  | _ => (e, false)

/-- duk_del_prop: key at the top, popped; the target index is resolved
before the pop.  A pointer key on the stash object removes the registry
entry. -/
def dukDelProp (e : Engine) (objIdx : Int) : Engine :=
  match e.stack with
  | k :: rest =>
    let target := stackAt e objIdx
    let e1 : Engine := { e with stack := rest }
    match target, k with
    | some .stashRef, .ptr p => { e1 with stash := alistDel e1.stash p }
    | some (.obj q), .str s =>
      match alistGet e.heap q with
      | some od => { e1 with heap := alistPut e.heap q ⟨alistDel od.props s, od.frozen, od.errCode⟩ }
      | Option.none => e1
    | _, _ => e1
  | [] => e

/-- duk_get_error_code of the value at the index: the error code recorded
for the object, 0 otherwise. -/
def dukGetErrorCode (e : Engine) (idx : Int) : Nat :=
  match stackAt e idx with
  | some (.obj p) =>
    match alistGet e.heap p with
    | some od => od.errCode
    | Option.none => 0
  | _ => 0

/-- duk_json_decode: mutate the string slot at the index in place into the
engine's parse of it.  The parser itself is external; it is supplied as the
jsonParse parameter (malformed input degrades to a null or undefined
value per the engine contract, spec sections 4.2 and 7). -/
def dukJsonDecode (jsonParse : String → EVal) (e : Engine) (idx : Int) : Engine :=
  match stackAt e idx with
  | some (.str s) => setStackAt e idx (jsonParse s)
  | _ => e

/-- JSON rendering of a double: non-finite doubles degrade to null, the
JSON-stringify behaviour the spec relies on (section 8).  Decimal
rendering of non-integral finite values is not modelled exactly; no claim
depends on it. -/
def jsonNumRepr : F64 → String
  | .nan => "null"
  | .inf _ => "null"
  | .fin q => if q.den = 1 then toString q.num else toString q

/-- JSON string quoting; escaping inside the text is not modelled, no claim
exercises it. -/
def jsonQuote (s : String) : String := "\"" ++ s ++ "\""

mutual
/-- The engine's JSON encoder (duk_json_encode's value-to-text part),
modelled per the external contract: scalars render as JSON literals,
undefined values are not representable, objects render their properties in
order, skipping unrepresentable values.  Fuel bounds the recursion through
the heap and along property lists (a cyclic object exhausts it and fails,
as the real encoder does); every recursive call consumes fuel so the
definition is structurally recursive and kernel-reducible. -/
def jsonEnc (heap : List (Nat × ObjData)) : Nat → EVal → Option String
  | _, .null => some "null"
  | _, .undefined => Option.none
  | _, .boolean b => some (if b then "true" else "false")
  | _, .num v => some (jsonNumRepr v)
  | _, .str s => some (jsonQuote s)
  | _, .ptr _ => Option.none
  | _, .stashRef => Option.none
  | 0, .obj _ => Option.none
  | fuel + 1, .obj p =>
    match alistGet heap p with
    | Option.none => Option.none
    | some od =>
      some ("\x7b" ++ String.intercalate "," (jsonEncProps heap fuel od.props) ++ "\x7d")

/-- Renders an object's property list for jsonEnc, skipping properties
whose value is not representable. -/
def jsonEncProps (heap : List (Nat × ObjData)) : Nat → List (String × EVal) → List String
  | _, [] => []
  | 0, _ :: _ => []
  | fuel + 1, (k, v) :: t =>
    match jsonEnc heap fuel v with
    | some s => (jsonQuote k ++ ":" ++ s) :: jsonEncProps heap fuel t
    | Option.none => jsonEncProps heap fuel t
end

/-- duk_json_encode at an index: replaces the slot with the rendered text
and returns it; a value the encoder cannot represent leaves the slot and
yields the null pointer the wrapper checks for. -/
def dukJsonEncode (fuel : Nat) (e : Engine) (idx : Int) : Option String × Engine :=
  match jsonEnc e.heap fuel ((stackAt e idx).getD .undefined) with
  | some s => (some s, setStackAt e idx (.str s))
  | Option.none => (Option.none, e)

/-- The number classification in CallBlock::get (context.rs lines 66-79):
a positive fractional part yields Float, otherwise NaN and infinities yield
their sentinels and the rest is cast to Int. -/
def numberOfDouble (v : F64) : Number :=
  if v.fract.gtZero then .float v
  else if v.isNaN then .nan
  else if v.isInfinite then .infinity
  else .int v.asI64

/-- Object::new (context.rs lines 317-330): read the heap pointer of the
object at the stack top, then anchor the object in the heap stash under
that pointer by the raw sequence push_heap_stash, push_pointer, dup(-3),
put_prop(-3), pop.  Returns the handle's pointer and the engine state. -/
def Object.new (e : Engine) : Nat × Engine :=
  let p := dukGetHeapptr e (-1)
  let e1 := dukPush e .stashRef
  let e2 := dukPush e1 (.ptr p)
  let e3 := dukPush e2 ((stackAt e2 (-3)).getD .undefined)
  let e4 := (dukPutProp e3 (-3)).1
  let e5 := dukPop e4
  (p, e5)

/-- The Drop impl for Object (context.rs lines 415-427): push_heap_stash,
push_pointer, del_prop(-2), pop — removes this handle's registry entry
unconditionally. -/
def Object.drop (e : Engine) (p : Nat) : Engine :=
  let e1 := dukPush e .stashRef
  let e2 := dukPush e1 (.ptr p)
  let e3 := dukDelProp e2 (-2)
  dukPop e3

/-- The body of CallBlock::get after its assertion (context.rs lines
57-93): dispatch on the engine type tag of the stack top.  DUK_TYPE_NONE
reads as Null, an object materializes a handle via Object::new, and any
other type tag falls to the catch-all Undefined arm.  The hidden stash
object is never read as a value by the wrapper; it takes the catch-all
arm. -/
def readTop (e : Engine) : Value × Engine :=
  match e.stack.head? with
  | Option.none => (Value.null, e)
  | some .undefined => (.undefined, e)
  | some .null => (.null, e)
  | some (.boolean b) => (.boolean b, e)
  | some (.num v) => (.number (numberOfDouble v), e)
  | some (.str s) => (.string s, e)
  | some (.obj _) =>
    let pe := Object.new e
    (.object pe.1, pe.2)
  | some (.ptr _) => (.undefined, e)
  | some .stashRef => (.undefined, e)

/-- CallBlock (context.rs lines 16-19): the tracked count of slots this
block is responsible for popping. -/
structure CallBlock where
  stackSize : Nat
deriving DecidableEq

/-- CallBlock::validate_stack_idx (context.rs lines 38-45) as a predicate:
the absolute index is within the tracked count. -/
def CallBlock.validIdx (cb : CallBlock) (idx : Int) : Bool :=
  decide (idx.natAbs ≤ cb.stackSize)

/-- CallBlock::get (context.rs lines 53-94): asserts the tracked count is
positive — none models the assertion failure — then reads the stack
top. -/
def CallBlock.get (cb : CallBlock) (e : Engine) : Option (Value × Engine) :=
  if cb.stackSize = 0 then Option.none else some (readTop e)

/-- CallBlock::push_lstring (context.rs lines 96-106): push and track one
slot. -/
def CallBlock.pushLstring (cb : CallBlock) (e : Engine) (s : String) : CallBlock × Engine :=
  (⟨cb.stackSize + 1⟩, dukPush e (.str s))

def CallBlock.pushHeapptr (cb : CallBlock) (e : Engine) (p : Nat) : CallBlock × Engine :=
  (⟨cb.stackSize + 1⟩, dukPushHeapptr e p)

def CallBlock.pushUndefined (cb : CallBlock) (e : Engine) : CallBlock × Engine :=
  (⟨cb.stackSize + 1⟩, dukPush e .undefined)

def CallBlock.pushNull (cb : CallBlock) (e : Engine) : CallBlock × Engine :=
  (⟨cb.stackSize + 1⟩, dukPush e .null)

def CallBlock.pushNan (cb : CallBlock) (e : Engine) : CallBlock × Engine :=
  (⟨cb.stackSize + 1⟩, dukPush e (.num .nan))

def CallBlock.pushNumber (cb : CallBlock) (e : Engine) (v : F64) : CallBlock × Engine :=
  (⟨cb.stackSize + 1⟩, dukPush e (.num v))

def CallBlock.pushBoolean (cb : CallBlock) (e : Engine) (b : Bool) : CallBlock × Engine :=
  (⟨cb.stackSize + 1⟩, dukPush e (.boolean b))

/-- CallBlock::get_prop_lstring (context.rs lines 170-181): asserts the
target index is tracked (none models the assertion failure), pushes the
property value on the engine stack and returns whether the property
existed.  It does not increment the tracked count. -/
def CallBlock.getPropLstring (cb : CallBlock) (e : Engine) (idx : Int) (name : String) :
    Option (Engine × Bool) :=
  if cb.stackSize < idx.natAbs then Option.none
  else some (dukGetPropLstring e idx name)

/-- CallBlock::put_prop_lstring (context.rs lines 213-230): asserts the
object index is tracked, decrements the tracked count, performs the write
and reports whether the engine accepted it. -/
def CallBlock.putPropLstring (cb : CallBlock) (e : Engine) (objIdx : Int) (name : String) :
    Option (CallBlock × Engine × Bool) :=
  if cb.stackSize < objIdx.natAbs then Option.none
  else
    let r := dukPutPropLstring e objIdx name
    some (⟨cb.stackSize - 1⟩, r.1, r.2)

/-- CallBlock::dup (context.rs lines 232-237): validates the index, tracks
and pushes a duplicate of the slot.  none models the Err the callers
unwrap. -/
def CallBlock.dup (cb : CallBlock) (e : Engine) (idx : Int) : Option (CallBlock × Engine) :=
  if cb.validIdx idx then some (⟨cb.stackSize + 1⟩, dukPush e ((stackAt e idx).getD .undefined))
  else Option.none

/-- CallBlock::is_undefined (context.rs lines 139-144): validates the index
and tests the slot; none models the Err the callers unwrap. -/
def CallBlock.isUndefined (cb : CallBlock) (e : Engine) (idx : Int) : Option Bool :=
  if cb.validIdx idx then some (decide (stackAt e idx = some .undefined)) else Option.none

/-- CallBlock::json_decode (context.rs lines 108-115): validates the index
then decodes the slot in place; none models the Err the caller unwraps. -/
def CallBlock.jsonDecode (jsonParse : String → EVal) (cb : CallBlock) (e : Engine) (idx : Int) :
    Option Engine :=
  if cb.validIdx idx then some (dukJsonDecode jsonParse e idx) else Option.none

/-- CallBlock::json_encode (context.rs lines 117-127): validates the index,
encodes the slot and fails when the engine returns the null pointer. -/
def CallBlock.jsonEncode (cb : CallBlock) (e : Engine) (idx : Int) (fuel : Nat) :
    Except String (String × Engine) :=
  if cb.validIdx idx then
    match dukJsonEncode fuel e idx with
    | (some s, e1) => .ok (s, e1)
    | (Option.none, _) => .error "Could not encode value as string"
  else .error "index out of the tracked stack"

/-- Pops n slots, the loop in the Drop impl for CallBlock (context.rs lines
249-256). -/
def popN : Nat → Engine → Engine
  | 0, e => e
  | n + 1, e => popN n (dukPop e)

/-- The Drop impl for CallBlock: pops exactly the tracked count, on every
exit path of the operation that opened the block. -/
def CallBlock.drop (cb : CallBlock) (e : Engine) : Engine := popN cb.stackSize e

/-- From Number for f64 (types.rs lines 38-47). -/
def f64FromNumber : Number → F64
  | .nan => .nan
  | .infinity => .inf true
  | .float v => v
  | .int i => .ofInt i

/-- Display for f64 as Rust prints it: NaN, inf and -inf; exact decimal
rendering of non-integral finite values is not modelled, no claim depends
on it. -/
def f64Display : F64 → String
  | .nan => "NaN"
  | .inf b => if b then "inf" else "-inf"
  | .fin q => if q.den = 1 then toString q.num else toString q

/-- Display for Number (types.rs lines 16-25). -/
def numberToString : Number → String
  | .nan => "NaN"
  | .infinity => "Infinity"
  | .float v => f64Display v
  | .int i => toString i

/-- Object::encode (context.rs lines 333-347): push the anchored handle; an
invalid handle yields the explicit empty outcome, otherwise duplicate and
JSON-encode the duplicate, with an encoder failure also yielding the empty
outcome.  The outer Option models panics, which the checks never reach. -/
def Object.encode (fuel : Nat) (e : Engine) (p : Nat) : Option (Option String × Engine) :=
  let s1 := CallBlock.pushHeapptr ⟨0⟩ e p
  match CallBlock.isUndefined s1.1 s1.2 (-1) with
  | Option.none => Option.none
  | some true => some (Option.none, CallBlock.drop s1.1 s1.2)
  | some false =>
    match CallBlock.dup s1.1 s1.2 (-1) with
    | Option.none => Option.none
    | some s2 =>
      match CallBlock.jsonEncode s2.1 s2.2 (-1) fuel with
      | .ok r => some (some r.1, CallBlock.drop s2.1 r.2)
      | .error _ => some (Option.none, CallBlock.drop s2.1 s2.2)

/-- TryInto String for Value (types.rs lines 127-143), threading the engine
because the object arm runs Object::encode on it. -/
def Value.tryIntoString (fuel : Nat) (e : Engine) : Value → Option (Except DukError String × Engine)
  | .undefined => some (.ok "undefined", e)
  | .null => some (.ok "null", e)
  | .number n => some (.ok (numberToString n), e)
  | .boolean b => some (.ok (if b then "true" else "false"), e)
  | .string s => some (.ok s, e)
  | .object p =>
    match Object.encode fuel e p with
    | Option.none => Option.none
    | some (some s, e1) => some (.ok s, e1)
    | some (Option.none, e1) =>
      some (.error (DukError.fromStr "Could not convert object to String"), e1)

/-- Context::decode_json (context.rs lines 275-281): push the text, decode
it in place (the unwrap models the library-bug panic, unreachable here) and
read the result; the block's Drop unwinds the tracked slot. -/
def Context.decodeJson (jsonParse : String → EVal) (e : Engine) (json : String) :
    Option (Value × Engine) :=
  let s1 := CallBlock.pushLstring ⟨0⟩ e json
  match CallBlock.jsonDecode jsonParse s1.1 s1.2 (-1) with
  | Option.none => Option.none
  | some e1 =>
    match CallBlock.get s1.1 e1 with
    | Option.none => Option.none
    | some ve => some (ve.1, CallBlock.drop s1.1 ve.2)

/-- Outcome of duk_eval_string for a given source text, supplied as a
parameter: the engine's parser, compiler and interpreter are external to
the repository.  The engine pushes one slot — the result on success, the
exception object on failure (spec section 6). -/
inductive EvalOutcome where
  | success : EVal → EvalOutcome
  | failure : Nat → EvalOutcome
deriving DecidableEq

/-- Context::eval_string (context.rs lines 284-296): the call block tracks
the one slot eval_string pushes.  On failure the error code and the stack
property of the exception object are read — the property value pushed by
get_prop_lstring is untracked — the diagnostic is converted to a string and
the raw code is transmuted into a DukErrorCode. -/
def Context.evalString (fuel : Nat) (outcome : EvalOutcome) (e : Engine) :
    Option (Except DukError Value × Engine) :=
  let cb : CallBlock := ⟨1⟩
  match outcome with
  | .success v =>
    let e1 := dukPush e v
    match CallBlock.get cb e1 with
    | Option.none => Option.none
    | some ve => some (.ok ve.1, CallBlock.drop cb ve.2)
  | .failure q =>
    let e1 := dukPush e (.obj q)
    let code := dukGetErrorCode e1 (-1)
    match CallBlock.getPropLstring cb e1 (-1) "stack" with
    | Option.none => Option.none
    | some (e2, _) =>
      match CallBlock.get cb e2 with
      | Option.none => Option.none
      | some ve =>
        match Value.tryIntoString fuel ve.2 ve.1 with
        | Option.none => Option.none
        | some (.error err, e3) => some (.error err, CallBlock.drop cb e3)
        | some (.ok s, e3) =>
          match dukErrorCodeOfU32 code with
          | Option.none => Option.none
          | some c => some (.error ⟨c, some s⟩, CallBlock.drop cb e3)

/-- Object::get (context.rs lines 350-361): push the handle, look the
property up, and read the pushed value on success; a lookup the engine
reports as failed yields the generic error. -/
def Object.get (e : Engine) (p : Nat) (name : String) :
    Option (Except DukError Value × Engine) :=
  let s1 := CallBlock.pushHeapptr ⟨0⟩ e p
  match CallBlock.getPropLstring s1.1 s1.2 (-1) name with
  | Option.none => Option.none
  | some (e1, found) =>
    if found then
      match CallBlock.get s1.1 e1 with
      | Option.none => Option.none
      | some ve => some (.ok ve.1, CallBlock.drop s1.1 ve.2)
    else
      some (.error ⟨.errorCode, some "Could not get property."⟩, CallBlock.drop s1.1 e1)

/-- The tail of Object::set after the value has been pushed: the property
write at index -2 and the mapping of its result. -/
def Object.setFinish (cb : CallBlock) (e : Engine) (name : String) :
    Option (Except DukError Unit × Engine) :=
  match CallBlock.putPropLstring cb e (-2) name with
  | Option.none => Option.none
  | some (cb1, e1, ok) =>
    if ok then some (.ok (), CallBlock.drop cb1 e1)
    else some (.error ⟨.errorCode, some "Failed to set property."⟩, CallBlock.drop cb1 e1)

/-- Object::set (context.rs lines 364-412) with the value already converted
to Value (the TryInto conversion for Value itself cannot fail): push the
handle, fail with NullPtr when it no longer resolves, marshal the value —
NaN as the engine NaN, Infinity as the string literal, other numbers as
doubles — and perform the property write. -/
def Object.set (e : Engine) (p : Nat) (name : String) (dukVal : Value) :
    Option (Except DukError Unit × Engine) :=
  let s1 := CallBlock.pushHeapptr ⟨0⟩ e p
  match CallBlock.isUndefined s1.1 s1.2 (-1) with
  | Option.none => Option.none
  | some true =>
    some (.error ⟨.nullPtr, some "Invalid heap pointer, cannot set property on an undefined object."⟩,
      CallBlock.drop s1.1 s1.2)
  | some false =>
    match dukVal with
    | .undefined =>
      let s2 := CallBlock.pushUndefined s1.1 s1.2
      Object.setFinish s2.1 s2.2 name
    | .null =>
      let s2 := CallBlock.pushNull s1.1 s1.2
      Object.setFinish s2.1 s2.2 name
    | .number n =>
      match n with
      | .nan =>
        let s2 := CallBlock.pushNan s1.1 s1.2
        Object.setFinish s2.1 s2.2 name
      | .infinity =>
        let s2 := CallBlock.pushLstring s1.1 s1.2 "Infinity"
        Object.setFinish s2.1 s2.2 name
      | m =>
        let s2 := CallBlock.pushNumber s1.1 s1.2 (f64FromNumber m)
        Object.setFinish s2.1 s2.2 name
    | .boolean b =>
      let s2 := CallBlock.pushBoolean s1.1 s1.2 b
      Object.setFinish s2.1 s2.2 name
    | .string str =>
      let s2 := CallBlock.pushLstring s1.1 s1.2 str
      Object.setFinish s2.1 s2.2 name
    | .object q =>
      let s2 := CallBlock.pushHeapptr s1.1 s1.2 q
      match CallBlock.isUndefined s2.1 s2.2 (-1) with
      | Option.none => Option.none
      | some true =>
        some (.error ⟨.errorCode, some "Error setting property to undefined object."⟩,
          CallBlock.drop s2.1 s2.2)
      | some false => Object.setFinish s2.1 s2.2 name

/-- From f64 for Value (types.rs lines 109-113): host-side construction
always yields the Float variant. -/
def Value.ofF64 (x : F64) : Value := .number (.float x)

/-- The marshaling policy of Object::set for numbers as the specification
states it (claim C7), written from the spec's words to be compared with the
embedded Object.set: NaN becomes the engine NaN sentinel, Infinity the
string literal, the finite variants engine doubles. -/
def specMarshalNumber : Number → EVal
  | .nan => .num .nan
  | .infinity => .str "Infinity"
  | .float v => .num v
  | .int i => .num (.ofInt i)

/-- Looking up the key just written by alistPut yields the written value. -/
theorem alistGet_alistPut_self {κ α : Type} [DecidableEq κ] (l : List (κ × α)) (k : κ) (v : α) :
    alistGet (alistPut l k v) k = some v := by
  induction l with
  | nil => simp [alistPut, alistGet]
  | cons kv t ih =>
    by_cases h : kv.1 = k
    · simp [alistPut, alistGet, h]
    · simp [alistPut, alistGet, h, ih]

/-- After alistDel the key is gone. -/
theorem alistGet_alistDel_self {κ α : Type} [DecidableEq κ] (l : List (κ × α)) (k : κ) :
    alistGet (alistDel l k) k = Option.none := by
  induction l with
  | nil => simp [alistDel, alistGet]
  | cons kv t ih =>
    by_cases h : kv.1 = k
    · simp [alistDel, h, ih]
    · simp [alistDel, alistGet, h, ih]

/-- C9: CallBlock::get on a block whose tracked count is zero is the guarded
programmer error — the assertion fires (modelled as none) and no value is
returned; with a positive tracked count the assertion branch is unreachable
and a value is produced. -/
theorem c9_get_assertion (e : Engine) :
    CallBlock.get ⟨0⟩ e = Option.none
  ∧ (∀ (cb : CallBlock) (e2 : Engine), 0 < cb.stackSize → (CallBlock.get cb e2).isSome = true) := by
  refine ⟨rfl, ?_⟩
  intro cb e2 h
  simp [CallBlock.get, Nat.pos_iff_ne_zero.mp h]

theorem c9_witness :
    CallBlock.get ⟨0⟩ ⟨[], [], []⟩ = Option.none
  ∧ (CallBlock.get ⟨1⟩ ⟨[EVal.null], [], []⟩).isSome = true :=
  ⟨(c9_get_assertion ⟨[], [], []⟩).1,
   (c9_get_assertion ⟨[], [], []⟩).2 ⟨1⟩ ⟨[EVal.null], [], []⟩ (by decide)⟩

/-- C10: host-side construction From f64 always yields the Float variant;
the integer reclassification happens only on the engine-read path
(numberOfDouble), so constructing from the double 2.0 gives Float 2.0 even
though reading 2.0 off the engine stack gives Int 2. -/
theorem c10_from_f64_no_reclassification (x : F64) :
    Value.ofF64 x = Value.number (Number.float x)
  ∧ Value.ofF64 (F64.fin 2) = Value.number (Number.float (F64.fin 2))
  ∧ numberOfDouble (F64.fin 2) = Number.int 2
  ∧ Number.float (F64.fin 2) ≠ Number.int 2 :=
  ⟨rfl, rfl, by
    have h2 : rtrunc 2 = 2 := by norm_num [rtrunc]
    norm_num [numberOfDouble, F64.fract, F64.gtZero, F64.isNaN, F64.isInfinite, F64.asI64, h2,
      i64Max, i64Min], by decide⟩

theorem stackAt_neg_one (e : Engine) : stackAt e (-1) = e.stack.get? 0 := rfl

theorem stackAt_neg_two (e : Engine) : stackAt e (-2) = e.stack.get? 1 := rfl

theorem stackAt_neg_three (e : Engine) : stackAt e (-3) = e.stack.get? 2 := rfl

theorem natAbs_neg_one : (-1 : Int).natAbs = 1 := rfl

theorem natAbs_neg_two : (-2 : Int).natAbs = 2 := rfl

theorem setStackAt_neg_one (e : Engine) (v : EVal) :
    setStackAt e (-1) v = { e with stack := e.stack.set 0 v } := rfl

/-- C1, the failing input evaluated: CallBlock::get_prop_lstring pushes a
slot without incrementing stack_size, so the two operations that use it are
not stack-neutral.  Object::get on a live object with an existing property
starts from an empty engine stack and ends with one residual slot (the
re-pushed handle), and Context::eval_string's failure path likewise leaves
the exception object behind — contradicting the stack-neutrality guarantee
in the CallBlock and Drop doc comments. -/
theorem c1_untracked_prop_slot :
    Object.get ⟨[], [(1, ⟨[("ok", EVal.boolean false)], false, 0⟩)], []⟩ 1 "ok"
      = some (.ok (Value.boolean false),
          ⟨[EVal.obj 1], [(1, ⟨[("ok", EVal.boolean false)], false, 0⟩)], []⟩)
  ∧ Context.evalString 0 (.failure 2)
      ⟨[], [(2, ⟨[("stack", EVal.str "SyntaxError: parse error")], false, 4⟩)], []⟩
      = some (.error ⟨.synCode, some "SyntaxError: parse error"⟩,
          ⟨[EVal.obj 2], [(2, ⟨[("stack", EVal.str "SyntaxError: parse error")], false, 4⟩)], []⟩) :=
  ⟨rfl, rfl⟩

/-- C2 counterexample: the double -2.5 read off the engine stack has a
nonzero (negative) fractional part, so the claim requires Float(-2.5); the
code tests fract() > 0, which is false for -0.5, and classifies it as
Int(-2). -/
theorem c2_counterexample :
    readTop ⟨[EVal.num (F64.fin (-(5/2)))], [], []⟩
      = (Value.number (Number.int (-2)), ⟨[EVal.num (F64.fin (-(5/2)))], [], []⟩)
  ∧ Number.int (-2) ≠ Number.float (F64.fin (-(5/2))) := by
  constructor
  · have hr : rtrunc (-(5/2)) = -2 := by norm_num [rtrunc]; decide
    norm_num [readTop, numberOfDouble, F64.fract, F64.gtZero, F64.isNaN, F64.isInfinite,
      F64.asI64, hr, i64Max, i64Min]
  · decide

/-- C2 amended: a double read off the engine stack is classified Float only
when its fractional part is positive; a finite double with zero or negative
fractional part becomes Int of its truncation toward zero (saturated to the
i64 range), and NaN and infinities always map to their sentinel variants.
The last conjunct ties the classifier to the engine-read path. -/
theorem c2_amended_classification (q : ℚ) :
    numberOfDouble F64.nan = Number.nan
  ∧ (∀ b, numberOfDouble (F64.inf b) = Number.infinity)
  ∧ (0 < q - (rtrunc q : ℚ) → numberOfDouble (F64.fin q) = Number.float (F64.fin q))
  ∧ (q - (rtrunc q : ℚ) ≤ 0 →
      numberOfDouble (F64.fin q) = Number.int (max i64Min (min i64Max (rtrunc q))))
  ∧ (∀ (st : List EVal) (hp : List (Nat × ObjData)) (ss : List (Nat × EVal)) (v : F64),
      readTop ⟨EVal.num v :: st, hp, ss⟩
        = (Value.number (numberOfDouble v), ⟨EVal.num v :: st, hp, ss⟩)) := by
  refine ⟨rfl, fun b => rfl, ?_, ?_, fun st hp ss v => rfl⟩
  · intro h
    simp [numberOfDouble, F64.fract, F64.gtZero, h]
  · intro h
    simp [numberOfDouble, F64.fract, F64.gtZero, F64.isNaN, F64.isInfinite, F64.asI64,
      not_lt.mpr h]

theorem c2_amended_witness :
    numberOfDouble (F64.fin (5/2)) = Number.float (F64.fin (5/2))
  ∧ numberOfDouble (F64.fin (-(5/2))) = Number.int (-2) := by
  constructor
  · refine (c2_amended_classification (5/2)).2.2.1 ?_
    have hr : rtrunc (5/2) = 2 := by norm_num [rtrunc]; decide
    rw [hr]; norm_num
  · have hr : rtrunc (-(5/2)) = -2 := by norm_num [rtrunc]; decide
    have hle : (-(5/2) : ℚ) - (rtrunc (-(5/2)) : ℚ) ≤ 0 := by rw [hr]; norm_num
    have h := (c2_amended_classification (-(5/2))).2.2.2.1 hle
    rw [h, hr]
    norm_num [i64Max, i64Min]

/-- C3 counterexample: one engine object (pointer 5), read twice so that two
Object instances anchor it; dropping one instance removes the stash
registry entry even though the other instance is still alive, so the entry
does not persist until the last referencing instance is dropped. -/
theorem c3_counterexample :
    alistGet ((Object.new ((Object.new ⟨[EVal.obj 5], [(5, ⟨[], false, 0⟩)], []⟩).2)).2).stash 5
      = some (EVal.obj 5)
  ∧ alistGet (Object.drop
        ((Object.new ((Object.new ⟨[EVal.obj 5], [(5, ⟨[], false, 0⟩)], []⟩).2)).2) 5).stash 5
      = Option.none :=
  ⟨rfl, rfl⟩

/-- C3 amended: Object::new anchors the object at the stack top in the
stash registry under its heap pointer (leaving the value stack unchanged),
and every Object instance's Drop removes that registry entry
unconditionally — single-owner semantics, regardless of how many other
instances still reference the same object. -/
theorem c3_amended_single_owner (e : Engine) (p : Nat) (rest : List EVal)
    (h : e.stack = EVal.obj p :: rest) :
    (Object.new e).1 = p
  ∧ alistGet (Object.new e).2.stash p = some (EVal.obj p)
  ∧ (Object.new e).2.stack = e.stack
  ∧ (∀ (e2 : Engine) (q : Nat),
      alistGet (Object.drop e2 q).stash q = Option.none
    ∧ (Object.drop e2 q).stack = e2.stack) := by
  obtain ⟨st, hp, ss⟩ := e
  simp only at h
  subst h
  refine ⟨rfl, ?_, rfl, ?_⟩
  · show alistGet (alistPut ss p (EVal.obj p)) p = some (EVal.obj p)
    exact alistGet_alistPut_self ss p (EVal.obj p)
  · intro e2 q
    constructor
    · show alistGet (alistDel e2.stash q) q = Option.none
      exact alistGet_alistDel_self e2.stash q
    · rfl

theorem c3_amended_witness :
    (Object.new ⟨[EVal.obj 5], [(5, ⟨[], false, 0⟩)], []⟩).1 = 5
  ∧ alistGet (Object.new ⟨[EVal.obj 5], [(5, ⟨[], false, 0⟩)], []⟩).2.stash 5
      = some (EVal.obj 5) :=
  ⟨(c3_amended_single_owner ⟨[EVal.obj 5], [(5, ⟨[], false, 0⟩)], []⟩ 5 [] rfl).1,
   (c3_amended_single_owner ⟨[EVal.obj 5], [(5, ⟨[], false, 0⟩)], []⟩ 5 [] rfl).2.1⟩

/-- C4 counterexample: an exception object whose error code 100 is outside
the recognized set is not mapped to any defined fallback category — the
unchecked transmute has no defined result there (modelled as none), so the
claim's fallback guarantee fails. -/
theorem c4_counterexample :
    Context.evalString 0 (.failure 2) ⟨[], [(2, ⟨[("stack", EVal.str "err")], false, 100⟩)], []⟩
      = Option.none
  ∧ dukErrorCodeOfU32 100 = Option.none :=
  ⟨rfl, rfl⟩

/-- C4 amended: when evaluation fails and the exception object carries one
of the recognized error codes, eval_string returns an error whose category
is the variant with that discriminant and whose message is the text of the
exception object's stack property, and the context remains usable: a
subsequent successful evaluation returns its value and restores the engine
state.  Unrecognized codes have no fallback (see the counterexample); the
failure path also leaves the exception object on the engine stack (claim
C1). -/
theorem c4_amended_eval_error (fuel : Nat) (e : Engine) (q : Nat) (od : ObjData) (s : String)
    (cc : DukErrorCode)
    (hq : alistGet e.heap q = some od)
    (hstack : alistGet od.props "stack" = some (EVal.str s))
    (hcode : dukErrorCodeOfU32 od.errCode = some cc) :
    Context.evalString fuel (.failure q) e
      = some (.error ⟨cc, some s⟩, ⟨EVal.obj q :: e.stack, e.heap, e.stash⟩)
  ∧ (∀ e2 : Engine, Context.evalString fuel (.success (EVal.boolean true)) e2
      = some (.ok (Value.boolean true), e2)) := by
  obtain ⟨st, hp, ss⟩ := e
  simp only at hq hstack hcode
  constructor
  · simp [Context.evalString, dukPush, dukGetErrorCode, stackAt_neg_one,
      CallBlock.getPropLstring, natAbs_neg_one, dukGetPropLstring, CallBlock.get, readTop,
      Value.tryIntoString, CallBlock.drop, popN, dukPop, hq, hstack, hcode]
  · intro e2
    rfl

theorem c4_amended_witness :
    Context.evalString 0 (.failure 7)
        ⟨[], [(7, ⟨[("stack", EVal.str "SyntaxError: unbalanced paren")], false, 4⟩)], []⟩
      = some (.error ⟨.synCode, some "SyntaxError: unbalanced paren"⟩,
          ⟨[EVal.obj 7], [(7, ⟨[("stack", EVal.str "SyntaxError: unbalanced paren")], false, 4⟩)], []⟩)
  ∧ Context.evalString 0 (.success (EVal.boolean true)) ⟨[], [], []⟩
      = some (.ok (Value.boolean true), ⟨[], [], []⟩) :=
  ⟨(c4_amended_eval_error 0
      ⟨[], [(7, ⟨[("stack", EVal.str "SyntaxError: unbalanced paren")], false, 4⟩)], []⟩
      7 ⟨[("stack", EVal.str "SyntaxError: unbalanced paren")], false, 4⟩
      "SyntaxError: unbalanced paren" .synCode rfl rfl rfl).1,
   (c4_amended_eval_error 0
      ⟨[], [(7, ⟨[("stack", EVal.str "SyntaxError: unbalanced paren")], false, 4⟩)], []⟩
      7 ⟨[("stack", EVal.str "SyntaxError: unbalanced paren")], false, 4⟩
      "SyntaxError: unbalanced paren" .synCode rfl rfl rfl).2 ⟨[], [], []⟩⟩

/-- C5 counterexample: looking up a property that is absent on a live
object does not yield Ok(Undefined) as the claim states — the engine
reports the lookup as failed and Object::get returns the generic error. -/
theorem c5_counterexample :
    Object.get ⟨[], [(1, ⟨[], false, 0⟩)], []⟩ 1 "missing"
      = some (.error ⟨.errorCode, some "Could not get property."⟩,
          ⟨[EVal.obj 1], [(1, ⟨[], false, 0⟩)], []⟩) :=
  rfl

/-- C5 amended: Object::get returns Ok with the retrieved Value when the
property exists — a property that exists with value undefined yields the
valid success Ok(Undefined) — and returns the generic-category error
whenever the engine reports the lookup as failed, which includes the case
of a property that is simply absent.  (Both paths leave the re-pushed
handle on the engine stack, claim C1.) -/
theorem c5_amended_get (e : Engine) (p : Nat) (od : ObjData) (name : String)
    (h : alistGet e.heap p = some od) :
    (alistGet od.props name = some EVal.undefined →
      Object.get e p name = some (.ok Value.undefined, ⟨EVal.obj p :: e.stack, e.heap, e.stash⟩))
  ∧ (alistGet od.props name = Option.none →
      Object.get e p name
        = some (.error ⟨.errorCode, some "Could not get property."⟩,
            ⟨EVal.obj p :: e.stack, e.heap, e.stash⟩)) := by
  obtain ⟨st, hp, ss⟩ := e
  simp only at h
  constructor
  · intro hprop
    simp [Object.get, CallBlock.pushHeapptr, dukPushHeapptr, dukPush, CallBlock.getPropLstring,
      natAbs_neg_one, dukGetPropLstring, stackAt_neg_one, CallBlock.get, readTop,
      CallBlock.drop, popN, dukPop, h, hprop]
  · intro hprop
    simp [Object.get, CallBlock.pushHeapptr, dukPushHeapptr, dukPush, CallBlock.getPropLstring,
      natAbs_neg_one, dukGetPropLstring, stackAt_neg_one, CallBlock.get, readTop,
      CallBlock.drop, popN, dukPop, h, hprop]

theorem c5_amended_witness :
    Object.get ⟨[], [(3, ⟨[("u", EVal.undefined)], false, 0⟩)], []⟩ 3 "u"
      = some (.ok Value.undefined, ⟨[EVal.obj 3], [(3, ⟨[("u", EVal.undefined)], false, 0⟩)], []⟩)
  ∧ Object.get ⟨[], [(3, ⟨[("u", EVal.undefined)], false, 0⟩)], []⟩ 3 "gone"
      = some (.error ⟨.errorCode, some "Could not get property."⟩,
          ⟨[EVal.obj 3], [(3, ⟨[("u", EVal.undefined)], false, 0⟩)], []⟩) :=
  ⟨(c5_amended_get ⟨[], [(3, ⟨[("u", EVal.undefined)], false, 0⟩)], []⟩ 3
      ⟨[("u", EVal.undefined)], false, 0⟩ "u" rfl).1 rfl,
   (c5_amended_get ⟨[], [(3, ⟨[("u", EVal.undefined)], false, 0⟩)], []⟩ 3
      ⟨[("u", EVal.undefined)], false, 0⟩ "gone" rfl).2 rfl⟩

/-- C6: Context::decode_json returns a Value for every input string and
never errors — the only potential panic, the unwrap of json_decode, is
unreachable because the index -1 is always within the tracked slot — and a
malformed input that the engine's tolerant parser degrades to null or
undefined yields exactly that Value with the engine state fully
restored. -/
theorem c6_decode_json_total (jsonParse : String → EVal) (e : Engine) (json : String) :
    (Context.decodeJson jsonParse e json).isSome = true
  ∧ (jsonParse json = EVal.null → Context.decodeJson jsonParse e json = some (Value.null, e))
  ∧ (jsonParse json = EVal.undefined →
      Context.decodeJson jsonParse e json = some (Value.undefined, e)) := by
  obtain ⟨st, hp, ss⟩ := e
  refine ⟨?_, ?_, ?_⟩
  · simp [Context.decodeJson, CallBlock.pushLstring, CallBlock.jsonDecode, CallBlock.validIdx,
      natAbs_neg_one, dukJsonDecode, stackAt_neg_one, setStackAt_neg_one, dukPush,
      CallBlock.get]
  · intro h
    simp [Context.decodeJson, CallBlock.pushLstring, CallBlock.jsonDecode, CallBlock.validIdx,
      natAbs_neg_one, dukJsonDecode, stackAt_neg_one, setStackAt_neg_one, dukPush,
      CallBlock.get, readTop, CallBlock.drop, popN, dukPop, h]
  · intro h
    simp [Context.decodeJson, CallBlock.pushLstring, CallBlock.jsonDecode, CallBlock.validIdx,
      natAbs_neg_one, dukJsonDecode, stackAt_neg_one, setStackAt_neg_one, dukPush,
      CallBlock.get, readTop, CallBlock.drop, popN, dukPop, h]

theorem c6_witness :
    Context.decodeJson (fun _ => EVal.null) ⟨[], [], []⟩ "not json at all"
      = some (Value.null, ⟨[], [], []⟩) :=
  (c6_decode_json_total (fun _ => EVal.null) ⟨[], [], []⟩ "not json at all").2.1 rfl

/-- C7: on a live, writable object, Object::set with a Number marshals the
value exactly as the spec's policy states — NaN as the engine NaN sentinel,
Infinity as the pushed string literal, Float and Int as engine doubles —
and stores it under the property name; and on the concrete input, setting a
property to NaN and then encoding the object renders that property as JSON
null. -/
theorem c7_set_number_marshal (e : Engine) (p : Nat) (od : ObjData) (name : String) (n : Number)
    (hq : alistGet e.heap p = some od) (hf : od.frozen = false) :
    Object.set e p name (.number n)
      = some (.ok (),
          ⟨e.stack,
           alistPut e.heap p ⟨alistPut od.props name (specMarshalNumber n), od.frozen, od.errCode⟩,
           e.stash⟩)
  ∧ Object.encode 2 ⟨[], [(1, ⟨[("k", EVal.num F64.nan)], false, 0⟩)], []⟩ 1
      = some (some "\x7b\"k\":null\x7d", ⟨[], [(1, ⟨[("k", EVal.num F64.nan)], false, 0⟩)], []⟩) := by
  obtain ⟨st, hp, ss⟩ := e
  simp only at hq
  constructor
  · cases n with
    | nan =>
      simp [Object.set, Object.setFinish, CallBlock.pushHeapptr, dukPushHeapptr, dukPush,
        CallBlock.isUndefined, CallBlock.validIdx, natAbs_neg_one, natAbs_neg_two,
        stackAt_neg_one, stackAt_neg_two, CallBlock.pushNan, CallBlock.putPropLstring,
        dukPutPropLstring, CallBlock.drop, popN, dukPop, hq, hf, specMarshalNumber]
    | infinity =>
      simp [Object.set, Object.setFinish, CallBlock.pushHeapptr, dukPushHeapptr, dukPush,
        CallBlock.isUndefined, CallBlock.validIdx, natAbs_neg_one, natAbs_neg_two,
        stackAt_neg_one, stackAt_neg_two, CallBlock.pushLstring, CallBlock.putPropLstring,
        dukPutPropLstring, CallBlock.drop, popN, dukPop, hq, hf, specMarshalNumber]
    | float v =>
      simp [Object.set, Object.setFinish, CallBlock.pushHeapptr, dukPushHeapptr, dukPush,
        CallBlock.isUndefined, CallBlock.validIdx, natAbs_neg_one, natAbs_neg_two,
        stackAt_neg_one, stackAt_neg_two, CallBlock.pushNumber, f64FromNumber,
        CallBlock.putPropLstring, dukPutPropLstring, CallBlock.drop, popN, dukPop, hq, hf,
        specMarshalNumber]
    | int i =>
      simp [Object.set, Object.setFinish, CallBlock.pushHeapptr, dukPushHeapptr, dukPush,
        CallBlock.isUndefined, CallBlock.validIdx, natAbs_neg_one, natAbs_neg_two,
        stackAt_neg_one, stackAt_neg_two, CallBlock.pushNumber, f64FromNumber,
        CallBlock.putPropLstring, dukPutPropLstring, CallBlock.drop, popN, dukPop, hq, hf,
        specMarshalNumber]
  · rfl

theorem c7_witness :
    Object.set ⟨[], [(1, ⟨[], false, 0⟩)], []⟩ 1 "k" (.number .nan)
      = some (.ok (), ⟨[], [(1, ⟨[("k", EVal.num F64.nan)], false, 0⟩)], []⟩) :=
  (c7_set_number_marshal ⟨[], [(1, ⟨[], false, 0⟩)], []⟩ 1 ⟨[], false, 0⟩ "k" .nan rfl rfl).1

/-- C8: Object::set on a handle that no longer resolves to a live object
fails with the NullPtr error before any write is attempted (the engine is
returned unchanged); a write the engine rejects (frozen target) yields the
generic-category error, also leaving the engine unchanged; and
Object::encode on such an invalid handle never raises and returns the
explicit empty outcome with the engine restored. -/
theorem c8_invalid_handle (fuel : Nat) (e : Engine) (p : Nat) (name : String) (b : Bool) :
    (alistGet e.heap p = Option.none →
      Object.set e p name (.boolean b)
        = some (.error ⟨.nullPtr,
            some "Invalid heap pointer, cannot set property on an undefined object."⟩, e)
    ∧ Object.encode fuel e p = some (Option.none, e))
  ∧ (∀ od : ObjData, alistGet e.heap p = some od → od.frozen = true →
      Object.set e p name (.boolean b)
        = some (.error ⟨.errorCode, some "Failed to set property."⟩, e)) := by
  obtain ⟨st, hp, ss⟩ := e
  constructor
  · intro hnone
    simp only at hnone
    constructor
    · simp [Object.set, CallBlock.pushHeapptr, dukPushHeapptr, dukPush, CallBlock.isUndefined,
        CallBlock.validIdx, natAbs_neg_one, stackAt_neg_one, CallBlock.drop, popN, dukPop,
        hnone]
    · simp [Object.encode, CallBlock.pushHeapptr, dukPushHeapptr, dukPush,
        CallBlock.isUndefined, CallBlock.validIdx, natAbs_neg_one, stackAt_neg_one,
        CallBlock.drop, popN, dukPop, hnone]
  · intro od hsome hfrozen
    simp only at hsome
    simp [Object.set, Object.setFinish, CallBlock.pushHeapptr, dukPushHeapptr, dukPush,
      CallBlock.isUndefined, CallBlock.validIdx, natAbs_neg_one, natAbs_neg_two,
      stackAt_neg_one, stackAt_neg_two, CallBlock.pushBoolean, CallBlock.putPropLstring,
      dukPutPropLstring, CallBlock.drop, popN, dukPop, hsome, hfrozen]

theorem c8_witness :
    Object.set ⟨[], [], []⟩ 9 "k" (.boolean true)
      = some (.error ⟨.nullPtr,
          some "Invalid heap pointer, cannot set property on an undefined object."⟩, ⟨[], [], []⟩)
  ∧ Object.encode 2 ⟨[], [], []⟩ 9 = some (Option.none, ⟨[], [], []⟩)
  ∧ Object.set ⟨[], [(1, ⟨[], true, 0⟩)], []⟩ 1 "k" (.boolean true)
      = some (.error ⟨.errorCode, some "Failed to set property."⟩, ⟨[], [(1, ⟨[], true, 0⟩)], []⟩) :=
  ⟨((c8_invalid_handle 2 ⟨[], [], []⟩ 9 "k" true).1 rfl).1,
   ((c8_invalid_handle 2 ⟨[], [], []⟩ 9 "k" true).1 rfl).2,
   (c8_invalid_handle 2 ⟨[], [(1, ⟨[], true, 0⟩)], []⟩ 1 "k" true).2 ⟨[], true, 0⟩ rfl rfl⟩

theorem c10_witness :
    Value.ofF64 F64.nan = Value.number (Number.float F64.nan) :=
  (c10_from_f64_no_reclassification F64.nan).1
